import Mathlib

/-!
Shallow embedding of the holoclaw-acp zomes.

Sources embedded here:
- src/zomes/integrity/acp_integrity/src/lib.rs  (entry types, validation engine)
- src/zomes/coordinator/acp_coordinator/src/lib.rs  (directory and job ledger services)

Rust string primitives are modelled over Lean strings: byte length for
String::len, list-prefix tests for str::starts_with, ASCII lowering for
str::to_lowercase, whitespace stripping for str::trim, and a direct
substring scan for str::contains.  The distributed record store is
modelled as an explicit state (entries addressed by position, a link
list, an anchor set); each coordinator function is state passing, and a
failing entry creation short-circuits before any link is appended,
mirroring the early return in the Rust.
-/

/-- Model of Rust String::len: the UTF-8 byte length of the string. -/
def rustLen (s : String) : Nat := s.utf8ByteSize

/-- Model of Rust str::starts_with on string patterns. -/
def rustStartsWith (s pre : String) : Bool := pre.data.isPrefixOf s.data

/-- Model of Rust str::trim: strip whitespace from both ends. -/
def rustTrim (s : String) : String :=
  ⟨((s.data.dropWhile Char.isWhitespace).reverse.dropWhile Char.isWhitespace).reverse⟩

/-- Model of Rust str::to_lowercase (ASCII range, as the code only compares ASCII). -/
def rustToLowercase (s : String) : String := ⟨s.data.map Char.toLower⟩

/-- Substring scan over character lists: does pat occur contiguously in l? -/
def listIsInfix (pat : List Char) : List Char → Bool
  | [] => pat.isEmpty
  | c :: rest => pat.isPrefixOf (c :: rest) || listIsInfix pat rest

/-- Model of Rust str::contains on string patterns. -/
def rustContains (s pat : String) : Bool := listIsInfix pat.data s.data

/-- AcpAgent entry (integrity zome lib.rs lines 6-17). -/
structure AcpAgent where
  wallet_address : String
  session_key_id : Nat
  name : String
  description : String
  registered_at : Nat
deriving DecidableEq, Repr

/-- AcpJob entry (integrity zome lib.rs lines 22-41). -/
structure AcpJob where
  job_id : String
  phases : List String
  escrow_hash : String
  agent_wallet_address : String
  job_offering_name : String
  service_requirements : String
  created_at : Nat
  current_phase : String
  deliverable : Option String
deriving DecidableEq, Repr

/-- Result of a validation callback: Valid, or Invalid with a reason string. -/
inductive ValidateCallbackResult where
  | valid
  | invalid (reason : String)
deriving DecidableEq, Repr

/-- Validate AcpAgent entry (integrity zome lib.rs lines 58-74). -/
def validate_acp_agent (agent : AcpAgent) : ValidateCallbackResult :=
  if !rustStartsWith agent.wallet_address "0x" || rustLen agent.wallet_address != 42 then
    .invalid "wallet_address must be a valid Ethereum address (0x... 42 chars)"
  else if rustTrim agent.name = "" then
    .invalid "name cannot be empty"
  else
    .valid

/-- The allowed phase names (integrity zome lib.rs line 109). -/
def valid_phases : List String :=
  ["requested", "negotiation", "transaction", "completed", "rejected"]

/-- Validate AcpJob entry (integrity zome lib.rs lines 77-117). -/
def validate_acp_job (job : AcpJob) : ValidateCallbackResult :=
  if !rustStartsWith job.escrow_hash "0x" || rustLen job.escrow_hash != 66 then
    .invalid "escrow_hash must be a valid transaction hash (0x... 66 chars)"
  else if !rustStartsWith job.agent_wallet_address "0x"
      || rustLen job.agent_wallet_address != 42 then
    .invalid "agent_wallet_address must be a valid Ethereum address"
  else if job.phases.isEmpty then
    .invalid "phases cannot be empty"
  else if rustTrim job.job_id = "" then
    .invalid "job_id cannot be empty"
  else if !valid_phases.contains job.current_phase then
    .invalid ("current_phase must be one of: " ++ String.intercalate ", " valid_phases)
  else
    .valid

/-- An entry payload as stored: an AcpAgent, an AcpJob, or some other record
kind living in the same store (the dispatcher passes those through). -/
inductive EntryData where
  | agentEntry (a : AcpAgent)
  | jobEntry (j : AcpJob)
  | otherEntry (payload : Nat)
deriving DecidableEq, Repr

/-- Structural decode attempt of an entry as AcpAgent (AcpAgent::try_from). -/
def decodeAgent : EntryData → Option AcpAgent
  | .agentEntry a => some a
  | _ => none

/-- Structural decode attempt of an entry as AcpJob (AcpJob::try_from). -/
def decodeJob : EntryData → Option AcpJob
  | .jobEntry j => some j
  | _ => none

/-- Link types of the app (integrity zome lib.rs lines 51-55). -/
inductive LinkType where
  | AgentToProfile
  | AllAgents
  | AgentToJobs
deriving DecidableEq, Repr

/-- A link base: the creating identity's public key, or an anchor path. -/
inductive LinkBase where
  | pubkey (k : Nat)
  | anchor (path : String)
deriving DecidableEq, Repr

/-- A directed typed link from a base address to a target entry address. -/
structure Link where
  base : LinkBase
  target : Nat
  linkType : LinkType
deriving DecidableEq, Repr

/-- The store operations being validated, as far as the dispatcher inspects
them: storing a record (whose entry may be absent), registering a link
creation, or anything else (the catch-all arm of the match). -/
inductive Op where
  | storeRecord (entry : Option EntryData)
  | registerCreateLink (link : Link)
  | otherOp
deriving DecidableEq, Repr

/-- The validate dispatcher (integrity zome lib.rs lines 120-144): try AcpAgent
first, then AcpJob, pass everything else through as Valid. -/
def validate (op : Op) : ValidateCallbackResult :=
  match op with
  | .storeRecord entry =>
    match entry with
    | some e =>
      match decodeAgent e with
      | some agent => validate_acp_agent agent
      | none =>
        match decodeJob e with
        | some job => validate_acp_job job
        | none => .valid
    | none => .valid
  | .registerCreateLink _ => .valid
  | .otherOp => .valid

/-- The distributed record store, as this app observes it: entries addressed
by their position in an append-only list, a list of typed links, and the set
of anchor paths that have been ensured. -/
structure DHTState where
  entries : List EntryData
  links : List Link
  anchors : List String
deriving DecidableEq, Repr

/-- Fetch the record stored at an address (get by address; absent is none). -/
def getRecord (s : DHTState) (addr : Nat) : Option EntryData := s.entries.get? addr

/-- Store create: the store invokes the validate dispatcher on the candidate
entry; on Invalid the write is rejected with the reason and the state is
unchanged, otherwise the entry is appended and its fresh address returned. -/
def create_entry (s : DHTState) (e : EntryData) : DHTState × Except String Nat :=
  match validate (.storeRecord (some e)) with
  | .invalid reason => (s, .error reason)
  | .valid => ({ s with entries := s.entries ++ [e] }, .ok s.entries.length)

/-- Store create_link: link creations are always accepted by the dispatcher,
so this simply appends the link. -/
def create_link (s : DHTState) (b : LinkBase) (t : Nat) (lt : LinkType) : DHTState :=
  { s with links := s.links ++ [⟨b, t, lt⟩] }

/-- Path::ensure for an anchor path: idempotent, a no-op when the anchor
already exists. -/
def ensureAnchor (s : DHTState) (path : String) : DHTState :=
  if path ∈ s.anchors then s else { s with anchors := s.anchors ++ [path] }

/-- Store get_links: all links with the given base and link type, in store
enumeration order. -/
def get_links (s : DHTState) (b : LinkBase) (lt : LinkType) : List Link :=
  s.links.filter (fun l => decide (l.base = b ∧ l.linkType = lt))

/-- The anchor path used for discovery (coordinator lib.rs lines 44-46). -/
def all_agents_path : String := "all_agents"

/-- register_agent (coordinator lib.rs lines 54-78): create the agent entry,
then the identity-to-profile link, then ensure the anchor and create the
anchor-to-profile link.  A failing create_entry returns before any link. -/
def register_agent (s : DHTState) (my_pub_key : Nat) (agent : AcpAgent) :
    DHTState × Except String Nat :=
  match create_entry s (.agentEntry agent) with
  | (s1, .error e) => (s1, .error e)
  | (s1, .ok agent_hash) =>
    let s2 := create_link s1 (.pubkey my_pub_key) agent_hash .AgentToProfile
    let s3 := ensureAnchor s2 all_agents_path
    let s4 := create_link s3 (.anchor all_agents_path) agent_hash .AllAgents
    (s4, .ok agent_hash)

/-- A profile summary returned by browse_agents (coordinator lib.rs 13-20). -/
structure AcpAgentInfo where
  wallet_address : String
  session_key_id : Nat
  name : String
  description : String
  registered_at : Nat
  agent_hash : Nat
deriving DecidableEq, Repr

/-- One iteration of the browse_agents loop (coordinator lib.rs lines 99-122):
fetch the link target, decode it as AcpAgent, and keep it when the query is
empty or a case-insensitive substring of name or description. -/
def browseStep (s : DHTState) (query : String) (link : Link) : Option AcpAgentInfo :=
  match getRecord s link.target with
  | none => none
  | some e =>
    match decodeAgent e with
    | none => none
    | some agent =>
      let query_lower := rustToLowercase query
      let matches_query := rustContains (rustToLowercase agent.name) query_lower
        || rustContains (rustToLowercase agent.description) query_lower
      if query = "" || matches_query then
        some ⟨agent.wallet_address, agent.session_key_id, agent.name,
              agent.description, agent.registered_at, link.target⟩
      else
        none

/-- browse_agents (coordinator lib.rs lines 85-125): follow all anchor links
and collect the matching, decodable targets. -/
def browse_agents (s : DHTState) (query : String) : List AcpAgentInfo :=
  (get_links s (.anchor all_agents_path) .AllAgents).filterMap (browseStep s query)

/-- Job creation input (coordinator lib.rs lines 24-29); the requirements map
is modelled as an association list. -/
structure JobCreationInput where
  agent_wallet_address : String
  job_offering_name : String
  service_requirements : List (String × String)
  escrow_hash : String
deriving DecidableEq, Repr

/-- JSON escaping of one character, as serde_json escapes string contents. -/
def jsonEscapeChar (c : Char) : List Char :=
  if c = '"' then ['\\', '"']
  else if c = '\\' then ['\\', '\\']
  else if c = '\n' then ['\\', 'n']
  else if c = '\t' then ['\\', 't']
  else if c = '\r' then ['\\', 'r']
  else [c]

/-- A JSON string literal for s: quotes around the escaped contents. -/
def jsonString (s : String) : String :=
  "\"" ++ ⟨s.data.flatMap jsonEscapeChar⟩ ++ "\""

/-- Model of serde_json::to_string on a string-to-string map: a JSON object
of the entries in iteration order. -/
def serde_json_to_string (m : List (String × String)) : String :=
  "\x7b" ++ String.intercalate "," (m.map (fun kv => jsonString kv.1 ++ ":" ++ jsonString kv.2))
    ++ "\x7d"

/-- The AcpJob record built by execute_acp_job (coordinator lib.rs 142-157)
from the input and the current timestamp in microseconds. -/
def buildJob (now : Nat) (input : JobCreationInput) : AcpJob :=
  { job_id := "job_" ++ toString now
    phases := ["requested", "negotiation", "transaction"]
    escrow_hash := input.escrow_hash
    agent_wallet_address := input.agent_wallet_address
    job_offering_name := input.job_offering_name
    service_requirements := serde_json_to_string input.service_requirements
    created_at := now
    current_phase := "requested"
    deliverable := none }

/-- execute_acp_job (coordinator lib.rs lines 137-181): build the job record,
create the entry, then link it to the caller's public key.  A failing
create_entry returns before the link. -/
def execute_acp_job (s : DHTState) (my_pub_key : Nat) (now : Nat)
    (input : JobCreationInput) : DHTState × Except String Nat :=
  match create_entry s (.jobEntry (buildJob now input)) with
  | (s1, .error e) => (s1, .error e)
  | (s1, .ok job_hash) =>
    (create_link s1 (.pubkey my_pub_key) job_hash .AgentToJobs, .ok job_hash)

/-- Balance query response (coordinator lib.rs lines 33-37). -/
structure WalletBalance where
  address : String
  balance_wei : String
  balance_eth : String
deriving DecidableEq, Repr

/-- get_wallet_balance (coordinator lib.rs lines 194-216): reject a malformed
address with an error, otherwise return the placeholder zero balance. -/
def get_wallet_balance (address : String) : Except String WalletBalance :=
  if !rustStartsWith address "0x" || rustLen address != 42 then
    .error "Invalid Ethereum address format"
  else
    .ok ⟨address, "0", "0.0"⟩

/-- get_my_jobs (coordinator lib.rs lines 220-239): follow the caller's
job links, decode each target, skip failures. -/
def get_my_jobs (s : DHTState) (my_pub_key : Nat) : List AcpJob :=
  (get_links s (.pubkey my_pub_key) .AgentToJobs).filterMap
    (fun link => (getRecord s link.target).bind decodeJob)

/-- get_job (coordinator lib.rs lines 243-252): fetch by address and decode
as AcpJob; absent or undecodable gives none. -/
def get_job (s : DHTState) (job_hash : Nat) : Option AcpJob :=
  match getRecord s job_hash with
  | some e =>
    match decodeJob e with
    | some job => some job
    | none => none
  | none => none

/-! Helper lemmas about the embedded definitions. -/

/-- Characterization of the agent validator by its two rules in order. -/
lemma validate_acp_agent_eq (a : AcpAgent) :
    validate_acp_agent a =
      if rustStartsWith a.wallet_address "0x" = true ∧ rustLen a.wallet_address = 42 then
        if rustTrim a.name = "" then
          .invalid "name cannot be empty"
        else
          .valid
      else
        .invalid "wallet_address must be a valid Ethereum address (0x... 42 chars)" := by
  unfold validate_acp_agent
  by_cases h1 : rustStartsWith a.wallet_address "0x" = true <;>
    by_cases h2 : rustLen a.wallet_address = 42 <;>
      simp [h1, h2, bne_iff_ne]

/-- Characterization of the job validator by its five rules in order. -/
lemma validate_acp_job_eq (j : AcpJob) :
    validate_acp_job j =
      if rustStartsWith j.escrow_hash "0x" = true ∧ rustLen j.escrow_hash = 66 then
        if rustStartsWith j.agent_wallet_address "0x" = true ∧
            rustLen j.agent_wallet_address = 42 then
          if j.phases = [] then
            .invalid "phases cannot be empty"
          else if rustTrim j.job_id = "" then
            .invalid "job_id cannot be empty"
          else if j.current_phase ∈ valid_phases then
            .valid
          else
            .invalid ("current_phase must be one of: " ++ String.intercalate ", " valid_phases)
        else
          .invalid "agent_wallet_address must be a valid Ethereum address"
      else
        .invalid "escrow_hash must be a valid transaction hash (0x... 66 chars)" := by
  unfold validate_acp_job
  by_cases h1 : rustStartsWith j.escrow_hash "0x" = true <;>
    by_cases h2 : rustLen j.escrow_hash = 66 <;>
      by_cases h3 : rustStartsWith j.agent_wallet_address "0x" = true <;>
        by_cases h4 : rustLen j.agent_wallet_address = 42 <;>
          by_cases h5 : j.phases = [] <;>
            by_cases h6 : j.current_phase ∈ valid_phases <;>
              simp [h1, h2, h3, h4, h5, h6, bne_iff_ne, List.isEmpty_iff, List.elem_iff]

/-- A string beginning with the non-whitespace character of "job_" never trims
to the empty string. -/
lemma rustTrim_job_prefix_ne_empty (t : String) : rustTrim ("job_" ++ t) ≠ "" := by
  intro h
  have hdata : (((("job_" ++ t).data.dropWhile Char.isWhitespace).reverse.dropWhile
      Char.isWhitespace).reverse) = [] := congrArg String.data h
  have hnil := List.reverse_eq_nil_iff.mp hdata
  have hall := List.dropWhile_eq_nil_iff.mp hnil
  have hmem : ('j' : Char) ∈ (("job_" ++ t).data.dropWhile Char.isWhitespace).reverse := by
    rw [List.mem_reverse]
    have hL : ("job_" ++ t).data = 'j' :: ('o' :: 'b' :: '_' :: t.data) := by
      simp [String.data_append]
    rw [hL, List.dropWhile_cons]
    simp
  exact absurd (hall _ hmem) (by decide)

/-- Ensuring an anchor never touches the entry list. -/
lemma ensureAnchor_entries (s : DHTState) (p : String) :
    (ensureAnchor s p).entries = s.entries := by
  unfold ensureAnchor
  split <;> rfl

/-- Ensuring an anchor never touches the link list. -/
lemma ensureAnchor_links (s : DHTState) (p : String) :
    (ensureAnchor s p).links = s.links := by
  unfold ensureAnchor
  split <;> rfl

/-- Membership in a get_links result is membership in the store's links with
the requested base and link type. -/
lemma mem_get_links (s : DHTState) (b : LinkBase) (lt : LinkType) (l : Link) :
    l ∈ get_links s b lt ↔ l ∈ s.links ∧ l.base = b ∧ l.linkType = lt := by
  unfold get_links
  rw [List.mem_filter]
  simp

/-- What it takes for one browse iteration to produce a summary. -/
lemma browseStep_eq_some (s : DHTState) (q : String) (l : Link) (info : AcpAgentInfo) :
    browseStep s q l = some info ↔
      ∃ a, getRecord s l.target = some (.agentEntry a) ∧
        (q = "" ∨
          rustContains (rustToLowercase a.name) (rustToLowercase q) = true ∨
          rustContains (rustToLowercase a.description) (rustToLowercase q) = true) ∧
        info = ⟨a.wallet_address, a.session_key_id, a.name, a.description,
                a.registered_at, l.target⟩ := by
  unfold browseStep
  cases hrec : getRecord s l.target with
  | none => simp
  | some e =>
    cases e with
    | agentEntry a =>
      show (if decide (q = "") || (rustContains (rustToLowercase a.name) (rustToLowercase q)
            || rustContains (rustToLowercase a.description) (rustToLowercase q)) then
          some (⟨a.wallet_address, a.session_key_id, a.name, a.description,
                 a.registered_at, l.target⟩ : AcpAgentInfo)
        else none) = some info ↔ _
      constructor
      · intro h
        by_cases hc : (decide (q = "") || (rustContains (rustToLowercase a.name)
            (rustToLowercase q) || rustContains (rustToLowercase a.description)
            (rustToLowercase q))) = true
        · rw [if_pos hc] at h
          injection h with h'
          refine ⟨a, rfl, ?_, h'.symm⟩
          simpa using hc
        · rw [if_neg hc] at h
          cases h
      · rintro ⟨a', ha', hcond, hinfo⟩
        obtain rfl : a = a' := by
          injection ha' with h1
          injection h1
        rw [hinfo, if_pos (by simpa using hcond)]
    | jobEntry j => simp [decodeAgent]
    | otherEntry p => simp [decodeAgent]

/-- Every produced summary carries the link target as its agent_hash. -/
lemma browseStep_agent_hash (s : DHTState) (q : String) (l : Link) (info : AcpAgentInfo)
    (h : browseStep s q l = some info) : info.agent_hash = l.target := by
  rcases (browseStep_eq_some s q l info).mp h with ⟨a, _, _, hinfo⟩
  rw [hinfo]

/-- Wallet-address format as the spec words it: the 0x prefix followed by
exactly 40 hexadecimal characters (42 characters total). -/
def specWalletFormat (s : String) : Bool :=
  rustStartsWith s "0x" && (rustLen s == 42) &&
    (s.data.drop 2).all (fun c => c.isDigit || ('a' ≤ c && c ≤ 'f') || ('A' ≤ c && c ≤ 'F'))

/-- A valid running example: 42-character wallet, non-empty name. -/
def exAgentA : AcpAgent :=
  { wallet_address := "0x" ++ String.mk (List.replicate 40 'a')
    session_key_id := 1
    name := "Helper Bot"
    description := "A helpful agent"
    registered_at := 1700000000 }

/-- An agent whose wallet has the right prefix and length but only non-hex
characters after the prefix. -/
def zWalletAgent : AcpAgent :=
  { wallet_address := "0x" ++ String.mk (List.replicate 40 'z')
    session_key_id := 1
    name := "Helper Bot"
    description := "A helpful agent"
    registered_at := 1700000000 }

/-! Theorems for the claims. -/

/-- C1: for every AcpAgent record, validation accepts it with respect to the
wallet field if and only if wallet_address has total length 42 and starts with
0x; in particular 0x123 is rejected and 0x followed by forty a characters is
accepted, assuming a non-empty name. -/
theorem validate_agent_wallet_prefix_length_iff (a : AcpAgent)
    (hname : rustTrim a.name ≠ "") :
    (validate_acp_agent a = .valid ↔
      rustStartsWith a.wallet_address "0x" = true ∧ rustLen a.wallet_address = 42) ∧
    (a.wallet_address = "0x123" →
      validate_acp_agent a =
        .invalid "wallet_address must be a valid Ethereum address (0x... 42 chars)") ∧
    (a.wallet_address = "0x" ++ String.mk (List.replicate 40 'a') →
      validate_acp_agent a = .valid) := by
  refine ⟨?_, ?_, ?_⟩
  · rw [validate_acp_agent_eq]
    by_cases hw : rustStartsWith a.wallet_address "0x" = true ∧ rustLen a.wallet_address = 42
    · rw [if_pos hw, if_neg hname]
      simp [hw]
    · rw [if_neg hw]
      simp [hw]
  · intro h
    rw [validate_acp_agent_eq, h, if_neg (by decide)]
  · intro h
    rw [validate_acp_agent_eq, h, if_pos (by decide), if_neg hname]

/-- Witness for C1 at a concrete agent with a 42-character 0x wallet. -/
theorem validate_agent_wallet_prefix_length_iff_witness :
    validate_acp_agent exAgentA = .valid :=
  (validate_agent_wallet_prefix_length_iff exAgentA (by decide)).2.2 rfl

/-- C2 counterexample: a wallet of length 42 starting with 0x whose remaining
40 characters are all the non-hex character z is accepted by validation, yet
it does not satisfy the spec's hex format. -/
theorem wallet_hex_not_checked_cex :
    validate_acp_agent zWalletAgent = .valid ∧
      specWalletFormat zWalletAgent.wallet_address = false := by
  decide

/-- C2 amended: validation checks only the 0x prefix and the total length 42
of wallet_address; hex-ness of the remaining 40 characters is not checked, so
a length-42 0x string with non-hex characters is accepted, given a non-empty
name. -/
theorem validate_agent_wallet_no_hex_check (a : AcpAgent)
    (hname : rustTrim a.name ≠ "") :
    (validate_acp_agent a = .valid ↔
      rustStartsWith a.wallet_address "0x" = true ∧ rustLen a.wallet_address = 42) ∧
    (a.wallet_address = "0x" ++ String.mk (List.replicate 40 'z') →
      validate_acp_agent a = .valid) := by
  refine ⟨?_, ?_⟩
  · rw [validate_acp_agent_eq]
    by_cases hw : rustStartsWith a.wallet_address "0x" = true ∧ rustLen a.wallet_address = 42
    · rw [if_pos hw, if_neg hname]
      simp [hw]
    · rw [if_neg hw]
      simp [hw]
  · intro h
    rw [validate_acp_agent_eq, h, if_pos (by decide), if_neg hname]

/-- Witness for C2's amended claim at the non-hex wallet agent. -/
theorem validate_agent_wallet_no_hex_check_witness :
    validate_acp_agent zWalletAgent = .valid :=
  (validate_agent_wallet_no_hex_check zWalletAgent (by decide)).2 rfl

/-- A job whose only defect is the unrecognized current_phase value. -/
def exJobUnknownPhase : AcpJob :=
  { job_id := "job_1"
    phases := ["requested"]
    escrow_hash := "0x" ++ String.mk (List.replicate 64 'b')
    agent_wallet_address := "0x" ++ String.mk (List.replicate 40 'a')
    job_offering_name := "offer"
    service_requirements := "\x7b\x7d"
    created_at := 5
    current_phase := "unknown"
    deliverable := none }

/-- C3: the job validator checks escrow_hash format, agent_wallet_address
format, phases non-empty, job_id non-empty after trimming, and current_phase
membership, in that fixed order, reporting only the first failing rule's
reason; when only the phase check fails the reason names all five allowed
phases. -/
theorem validate_acp_job_first_failure_order (job : AcpJob) :
    (¬(rustStartsWith job.escrow_hash "0x" = true ∧ rustLen job.escrow_hash = 66) →
      validate_acp_job job =
        .invalid "escrow_hash must be a valid transaction hash (0x... 66 chars)") ∧
    (rustStartsWith job.escrow_hash "0x" = true ∧ rustLen job.escrow_hash = 66 →
      ¬(rustStartsWith job.agent_wallet_address "0x" = true ∧
          rustLen job.agent_wallet_address = 42) →
      validate_acp_job job =
        .invalid "agent_wallet_address must be a valid Ethereum address") ∧
    (rustStartsWith job.escrow_hash "0x" = true ∧ rustLen job.escrow_hash = 66 →
      rustStartsWith job.agent_wallet_address "0x" = true ∧
        rustLen job.agent_wallet_address = 42 →
      job.phases = [] →
      validate_acp_job job = .invalid "phases cannot be empty") ∧
    (rustStartsWith job.escrow_hash "0x" = true ∧ rustLen job.escrow_hash = 66 →
      rustStartsWith job.agent_wallet_address "0x" = true ∧
        rustLen job.agent_wallet_address = 42 →
      job.phases ≠ [] →
      rustTrim job.job_id = "" →
      validate_acp_job job = .invalid "job_id cannot be empty") ∧
    (rustStartsWith job.escrow_hash "0x" = true ∧ rustLen job.escrow_hash = 66 →
      rustStartsWith job.agent_wallet_address "0x" = true ∧
        rustLen job.agent_wallet_address = 42 →
      job.phases ≠ [] →
      rustTrim job.job_id ≠ "" →
      job.current_phase ∉ valid_phases →
      validate_acp_job job =
        .invalid
          "current_phase must be one of: requested, negotiation, transaction, completed, rejected"
      ∧ ∀ p ∈ valid_phases,
          rustContains
            "current_phase must be one of: requested, negotiation, transaction, completed, rejected"
            p = true) ∧
    (rustStartsWith job.escrow_hash "0x" = true ∧ rustLen job.escrow_hash = 66 →
      rustStartsWith job.agent_wallet_address "0x" = true ∧
        rustLen job.agent_wallet_address = 42 →
      job.phases ≠ [] →
      rustTrim job.job_id ≠ "" →
      job.current_phase ∈ valid_phases →
      validate_acp_job job = .valid) := by
  refine ⟨?_, ?_, ?_, ?_, ?_, ?_⟩
  · intro h1
    rw [validate_acp_job_eq, if_neg h1]
  · intro h1 h2
    rw [validate_acp_job_eq, if_pos h1, if_neg h2]
  · intro h1 h2 h3
    rw [validate_acp_job_eq, if_pos h1, if_pos h2, if_pos h3]
  · intro h1 h2 h3 h4
    rw [validate_acp_job_eq, if_pos h1, if_pos h2, if_neg h3, if_pos h4]
  · intro h1 h2 h3 h4 h5
    refine ⟨?_, by decide⟩
    rw [validate_acp_job_eq, if_pos h1, if_pos h2, if_neg h3, if_neg h4, if_neg h5]
    decide
  · intro h1 h2 h3 h4 h5
    rw [validate_acp_job_eq, if_pos h1, if_pos h2, if_neg h3, if_neg h4, if_pos h5]

/-- Witness for C3 at a job whose current_phase is "unknown" and whose earlier
rules all pass. -/
theorem validate_acp_job_first_failure_order_witness :
    validate_acp_job exJobUnknownPhase =
      .invalid
        "current_phase must be one of: requested, negotiation, transaction, completed, rejected" :=
  ((validate_acp_job_first_failure_order exJobUnknownPhase).2.2.2.2.1
    (by decide) (by decide) (by decide) (by decide) (by decide)).1

/-- C4 counterexample: get_wallet_balance does return an error to the caller
on a malformed address, so it is not the case that every input yields a zero
balance. -/
theorem get_wallet_balance_error_cex :
    get_wallet_balance "abc" = .error "Invalid Ethereum address format" := by
  rfl

/-- C4 amended: get_wallet_balance returns the placeholder zero balance with
the address echoed back for every well-formed address (0x prefix, total
length 42), and returns an error for every malformed address. -/
theorem get_wallet_balance_spec (address : String) :
    (rustStartsWith address "0x" = true → rustLen address = 42 →
      get_wallet_balance address =
        .ok { address := address, balance_wei := "0", balance_eth := "0.0" }) ∧
    (¬(rustStartsWith address "0x" = true ∧ rustLen address = 42) →
      get_wallet_balance address = .error "Invalid Ethereum address format") := by
  unfold get_wallet_balance
  constructor
  · intro h1 h2
    simp [h1, h2]
  · intro h
    rcases not_and_or.mp h with h' | h'
    · rw [Bool.not_eq_true] at h'
      simp [h']
    · simp [h', bne_iff_ne]

/-- Witness for C4's amended claim at a well-formed address. -/
theorem get_wallet_balance_spec_witness :
    get_wallet_balance ("0x" ++ String.mk (List.replicate 40 'a')) =
      .ok { address := "0x" ++ String.mk (List.replicate 40 'a'),
            balance_wei := "0", balance_eth := "0.0" } :=
  (get_wallet_balance_spec ("0x" ++ String.mk (List.replicate 40 'a'))).1
    (by decide) (by decide)

/-- C5: a summary is in the browse_agents result exactly when some anchor
link's target resolves, decodes as an AcpAgent, and passes the query filter
(empty query, or case-insensitive substring of name or description);
unresolvable or undecodable targets contribute nothing and the browse still
returns. -/
theorem browse_agents_mem_iff (s : DHTState) (query : String) (info : AcpAgentInfo) :
    info ∈ browse_agents s query ↔
      ∃ t a, Link.mk (.anchor all_agents_path) t .AllAgents ∈ s.links ∧
        getRecord s t = some (.agentEntry a) ∧
        (query = "" ∨
          rustContains (rustToLowercase a.name) (rustToLowercase query) = true ∨
          rustContains (rustToLowercase a.description) (rustToLowercase query) = true) ∧
        info = ⟨a.wallet_address, a.session_key_id, a.name, a.description,
                a.registered_at, t⟩ := by
  unfold browse_agents
  rw [List.mem_filterMap]
  constructor
  · rintro ⟨l, hl, hstep⟩
    rw [mem_get_links] at hl
    obtain ⟨hmem, hbase, htype⟩ := hl
    rcases (browseStep_eq_some s query l info).mp hstep with ⟨a, hrec, hcond, hinfo⟩
    refine ⟨l.target, a, ?_, hrec, hcond, hinfo⟩
    have hlink : l = ⟨.anchor all_agents_path, l.target, .AllAgents⟩ := by
      cases l
      rw [← hbase, ← htype]
    rw [← hlink]
    exact hmem
  · rintro ⟨t, a, hmem, hrec, hcond, hinfo⟩
    refine ⟨⟨.anchor all_agents_path, t, .AllAgents⟩, ?_, ?_⟩
    · rw [mem_get_links]
      exact ⟨hmem, rfl, rfl⟩
    · rw [browseStep_eq_some]
      exact ⟨a, hrec, hcond, hinfo⟩

/-- An empty starting store. -/
def emptyState : DHTState := { entries := [], links := [], anchors := [] }

/-- A well-formed job creation input. -/
def exInput : JobCreationInput :=
  { agent_wallet_address := "0x" ++ String.mk (List.replicate 40 'a')
    job_offering_name := "offer"
    service_requirements := [("cpu", "2")]
    escrow_hash := "0x" ++ String.mk (List.replicate 64 'b') }

/-- C6: the job built by execute_acp_job derives job_id from the timestamp,
fixes the three initial phases, serializes the requirements, starts in phase
requested with no deliverable; with format-valid escrow hash and wallet
address the creation succeeds and get_job on the returned address yields the
identical job. -/
theorem execute_acp_job_roundtrip (s : DHTState) (pk now : Nat)
    (input : JobCreationInput) :
    (buildJob now input).job_id = "job_" ++ toString now ∧
    (buildJob now input).phases = ["requested", "negotiation", "transaction"] ∧
    (buildJob now input).service_requirements =
      serde_json_to_string input.service_requirements ∧
    (buildJob now input).current_phase = "requested" ∧
    (buildJob now input).deliverable = none ∧
    (rustStartsWith input.escrow_hash "0x" = true → rustLen input.escrow_hash = 66 →
      rustStartsWith input.agent_wallet_address "0x" = true →
      rustLen input.agent_wallet_address = 42 →
      ∃ s', execute_acp_job s pk now input = (s', .ok s.entries.length) ∧
        get_job s' s.entries.length = some (buildJob now input)) := by
  refine ⟨rfl, rfl, rfl, rfl, rfl, ?_⟩
  intro h1 h2 h3 h4
  have hvalid : validate_acp_job (buildJob now input) = .valid := by
    rw [validate_acp_job_eq]
    simp only [buildJob]
    rw [if_pos ⟨h1, h2⟩, if_pos ⟨h3, h4⟩, if_neg (by decide),
      if_neg (rustTrim_job_prefix_ne_empty (toString now)), if_pos (by decide)]
  have hv : validate (.storeRecord (some (.jobEntry (buildJob now input)))) = .valid := by
    simp [validate, decodeAgent, decodeJob, hvalid]
  have hce : create_entry s (.jobEntry (buildJob now input)) =
      ({ s with entries := s.entries ++ [.jobEntry (buildJob now input)] },
        .ok s.entries.length) := by
    unfold create_entry
    rw [hv]
  refine ⟨{ entries := s.entries ++ [.jobEntry (buildJob now input)],
            links := s.links ++ [⟨.pubkey pk, s.entries.length, .AgentToJobs⟩],
            anchors := s.anchors }, ?_, ?_⟩
  · unfold execute_acp_job
    rw [hce]
    rfl
  · unfold get_job getRecord
    simp [List.get?_eq_getElem?, List.getElem?_concat_length, decodeJob]

/-- Witness for C6 at a concrete state, timestamp and well-formed input. -/
theorem execute_acp_job_roundtrip_witness :
    ∃ s', execute_acp_job emptyState 7 5 exInput = (s', .ok 0) ∧
      get_job s' 0 = some (buildJob 5 exInput) :=
  (execute_acp_job_roundtrip emptyState 7 5 exInput).2.2.2.2.2
    (by decide) (by decide) (by decide) (by decide)

/-- Shape of register_agent on a validator-accepted agent: the entry is
appended and exactly the two discovery links are created, targeting it. -/
lemma register_agent_valid (s : DHTState) (pk : Nat) (a : AcpAgent)
    (hva : validate_acp_agent a = .valid) :
    ∃ s', register_agent s pk a = (s', .ok s.entries.length) ∧
      s'.entries = s.entries ++ [.agentEntry a] ∧
      s'.links = s.links ++ [⟨.pubkey pk, s.entries.length, .AgentToProfile⟩,
                             ⟨.anchor all_agents_path, s.entries.length, .AllAgents⟩] := by
  have hval : validate (.storeRecord (some (.agentEntry a))) = .valid := by
    simp [validate, decodeAgent, hva]
  have hce : create_entry s (.agentEntry a) =
      ({ s with entries := s.entries ++ [.agentEntry a] }, .ok s.entries.length) := by
    unfold create_entry
    rw [hval]
  refine ⟨create_link (ensureAnchor (create_link
      { s with entries := s.entries ++ [.agentEntry a] }
      (.pubkey pk) s.entries.length .AgentToProfile) all_agents_path)
      (.anchor all_agents_path) s.entries.length .AllAgents, ?_, ?_, ?_⟩
  · unfold register_agent
    rw [hce]
  · simp [create_link, ensureAnchor_entries]
  · simp [create_link, ensureAnchor_links]

/-- Shape of execute_acp_job on a validator-accepted built job. -/
lemma execute_acp_job_valid (s : DHTState) (pk now : Nat) (input : JobCreationInput)
    (hvj : validate_acp_job (buildJob now input) = .valid) :
    execute_acp_job s pk now input =
      ({ s with entries := s.entries ++ [.jobEntry (buildJob now input)],
                links := s.links ++ [⟨.pubkey pk, s.entries.length, .AgentToJobs⟩] },
       .ok s.entries.length) := by
  have hval : validate (.storeRecord (some (.jobEntry (buildJob now input)))) = .valid := by
    simp [validate, decodeAgent, decodeJob, hvj]
  have hce : create_entry s (.jobEntry (buildJob now input)) =
      ({ s with entries := s.entries ++ [.jobEntry (buildJob now input)] },
        .ok s.entries.length) := by
    unfold create_entry
    rw [hval]
  unfold execute_acp_job
  rw [hce]
  rfl

/-- C7: in register_agent and execute_acp_job, a rejected entry creation
returns the error with the store unchanged and no link created, while on
success the created links are exactly the ones targeting the freshly
appended entry. -/
theorem links_after_entry_creation (s : DHTState) (pk now : Nat) (a : AcpAgent)
    (input : JobCreationInput) :
    (∀ r, validate_acp_agent a = .invalid r → register_agent s pk a = (s, .error r)) ∧
    (∀ r, validate_acp_job (buildJob now input) = .invalid r →
      execute_acp_job s pk now input = (s, .error r)) ∧
    (∀ s' h, register_agent s pk a = (s', .ok h) →
      getRecord s' h = some (.agentEntry a) ∧
      s'.links = s.links ++ [⟨.pubkey pk, h, .AgentToProfile⟩,
                             ⟨.anchor all_agents_path, h, .AllAgents⟩]) ∧
    (∀ s' h, execute_acp_job s pk now input = (s', .ok h) →
      getRecord s' h = some (.jobEntry (buildJob now input)) ∧
      s'.links = s.links ++ [⟨.pubkey pk, h, .AgentToJobs⟩]) := by
  refine ⟨?_, ?_, ?_, ?_⟩
  · intro r hr
    have hval : validate (.storeRecord (some (.agentEntry a))) = .invalid r := by
      simp [validate, decodeAgent, hr]
    unfold register_agent create_entry
    rw [hval]
  · intro r hr
    have hval : validate (.storeRecord (some (.jobEntry (buildJob now input)))) =
        .invalid r := by
      simp [validate, decodeAgent, decodeJob, hr]
    unfold execute_acp_job create_entry
    rw [hval]
  · intro s' h hreg
    cases hva : validate_acp_agent a with
    | invalid reason =>
      have hval : validate (.storeRecord (some (.agentEntry a))) = .invalid reason := by
        simp [validate, decodeAgent, hva]
      unfold register_agent create_entry at hreg
      rw [hval] at hreg
      simp at hreg
    | valid =>
      obtain ⟨s'', hreg', hent, hlinks⟩ := register_agent_valid s pk a hva
      rw [hreg'] at hreg
      injection hreg with h1 h2
      injection h2 with h2
      subst h1
      subst h2
      constructor
      · unfold getRecord
        rw [hent]
        simp [List.get?_eq_getElem?, List.getElem?_concat_length]
      · rw [hlinks]
  · intro s' h hexec
    cases hvj : validate_acp_job (buildJob now input) with
    | invalid reason =>
      have hval : validate (.storeRecord (some (.jobEntry (buildJob now input)))) =
          .invalid reason := by
        simp [validate, decodeAgent, decodeJob, hvj]
      unfold execute_acp_job create_entry at hexec
      rw [hval] at hexec
      simp at hexec
    | valid =>
      rw [execute_acp_job_valid s pk now input hvj] at hexec
      injection hexec with h1 h2
      injection h2 with h2
      subst h1
      subst h2
      constructor
      · unfold getRecord
        simp [List.get?_eq_getElem?, List.getElem?_concat_length]
      · rfl

/-- An agent whose wallet is too short, rejected by validation. -/
def badAgent : AcpAgent :=
  { wallet_address := "0x123"
    session_key_id := 1
    name := "n"
    description := "d"
    registered_at := 0 }

/-- Witness for C7: registering the invalid agent in the empty store fails
and leaves the store unchanged. -/
theorem links_after_entry_creation_witness :
    register_agent emptyState 0 badAgent =
      (emptyState, .error "wallet_address must be a valid Ethereum address (0x... 42 chars)") :=
  (links_after_entry_creation emptyState 0 0 badAgent exInput).1
    "wallet_address must be a valid Ethereum address (0x... 42 chars)" (by decide)

/-- C8: the validate dispatcher applies the agent rules to a payload that
decodes as AcpAgent, the job rules to one that decodes only as AcpJob,
passes every other payload through as Valid, and accepts every
link-creation operation regardless of its link type. -/
theorem validate_dispatch (e : EntryData) (l : Link) :
    (∀ a, decodeAgent e = some a →
      validate (.storeRecord (some e)) = validate_acp_agent a) ∧
    (∀ j, decodeAgent e = none → decodeJob e = some j →
      validate (.storeRecord (some e)) = validate_acp_job j) ∧
    (decodeAgent e = none → decodeJob e = none →
      validate (.storeRecord (some e)) = .valid) ∧
    validate (.storeRecord none) = .valid ∧
    validate (.registerCreateLink l) = .valid ∧
    validate .otherOp = .valid := by
  refine ⟨?_, ?_, ?_, rfl, rfl, rfl⟩
  · intro a ha
    cases e <;> simp_all [decodeAgent, validate]
  · intro j h1 h2
    cases e <;> simp_all [decodeAgent, decodeJob, validate]
  · intro h1 h2
    cases e <;> simp_all [decodeAgent, decodeJob, validate]

/-- Witness for C8 at a payload that decodes as neither entry kind. -/
theorem validate_dispatch_witness :
    validate (.storeRecord (some (.otherEntry 0))) = .valid :=
  (validate_dispatch (.otherEntry 0) ⟨.pubkey 0, 0, .AllAgents⟩).2.2.1 rfl rfl

/-- C9: starting from a store in which no link targets the address the new
profile will get, registering a valid profile and then browsing with the
empty query returns that profile exactly once. -/
theorem register_then_browse_once (s : DHTState) (pk : Nat) (a : AcpAgent)
    (hvalid : validate_acp_agent a = .valid)
    (hfresh : ∀ l ∈ s.links, l.target ≠ s.entries.length) :
    ∃ s', register_agent s pk a = (s', .ok s.entries.length) ∧
      (browse_agents s' "").filter
        (fun i => decide (i.agent_hash = s.entries.length)) =
      [⟨a.wallet_address, a.session_key_id, a.name, a.description, a.registered_at,
        s.entries.length⟩] := by
  obtain ⟨s', hreg, hent, hlinks⟩ := register_agent_valid s pk a hvalid
  refine ⟨s', hreg, ?_⟩
  unfold browse_agents
  have hgl : get_links s' (.anchor all_agents_path) .AllAgents =
      (s.links.filter (fun l =>
        decide (l.base = .anchor all_agents_path ∧ l.linkType = .AllAgents)))
        ++ [⟨.anchor all_agents_path, s.entries.length, .AllAgents⟩] := by
    unfold get_links
    rw [hlinks, List.filter_append]
    congr 1
  rw [hgl, List.filterMap_append, List.filter_append]
  have hold : ((s.links.filter (fun l =>
      decide (l.base = .anchor all_agents_path ∧ l.linkType = .AllAgents))).filterMap
        (browseStep s' "")).filter
      (fun i => decide (i.agent_hash = s.entries.length)) = [] := by
    rw [List.filter_eq_nil_iff]
    intro info hinfo
    rw [List.mem_filterMap] at hinfo
    obtain ⟨l, hl, hstep⟩ := hinfo
    have hmeml : l ∈ s.links := (List.mem_filter.mp hl).1
    have hhash := browseStep_agent_hash s' "" l info hstep
    have hne := hfresh l hmeml
    simp [hhash, hne]
  rw [hold]
  have hstep : browseStep s' ""
      ⟨.anchor all_agents_path, s.entries.length, .AllAgents⟩ =
      some ⟨a.wallet_address, a.session_key_id, a.name, a.description,
            a.registered_at, s.entries.length⟩ := by
    rw [browseStep_eq_some]
    refine ⟨a, ?_, Or.inl rfl, rfl⟩
    unfold getRecord
    rw [hent]
    simp [List.get?_eq_getElem?, List.getElem?_concat_length]
  simp [hstep]

/-- Witness for C9: register the example agent in the empty store, browse. -/
theorem register_then_browse_once_witness :
    ∃ s', register_agent emptyState 3 exAgentA = (s', .ok 0) ∧
      (browse_agents s' "").filter (fun i => decide (i.agent_hash = 0)) =
      [⟨exAgentA.wallet_address, exAgentA.session_key_id, exAgentA.name,
        exAgentA.description, exAgentA.registered_at, 0⟩] :=
  register_then_browse_once emptyState 3 exAgentA (by decide)
    (fun l hl => absurd hl (List.not_mem_nil l))

/-- C10: every job built by execute_acp_job satisfies the phases-non-empty,
job_id-non-empty and current_phase-membership rules; its validation outcome
depends only on the caller-supplied escrow hash and wallet address formats,
and any Invalid reason is one of those two format messages. -/
theorem built_job_validation (now : Nat) (input : JobCreationInput) :
    (buildJob now input).phases ≠ [] ∧
    rustTrim (buildJob now input).job_id ≠ "" ∧
    (buildJob now input).current_phase ∈ valid_phases ∧
    (validate_acp_job (buildJob now input) = .valid ↔
      ((rustStartsWith input.escrow_hash "0x" = true ∧ rustLen input.escrow_hash = 66) ∧
       (rustStartsWith input.agent_wallet_address "0x" = true ∧
        rustLen input.agent_wallet_address = 42))) ∧
    (∀ r, validate_acp_job (buildJob now input) = .invalid r →
      r = "escrow_hash must be a valid transaction hash (0x... 66 chars)" ∨
      r = "agent_wallet_address must be a valid Ethereum address") := by
  refine ⟨by simp [buildJob], rustTrim_job_prefix_ne_empty (toString now),
    by simp [buildJob, valid_phases], ?_, ?_⟩
  · rw [validate_acp_job_eq]
    simp only [buildJob]
    by_cases h1 : rustStartsWith input.escrow_hash "0x" = true ∧
        rustLen input.escrow_hash = 66
    · by_cases h2 : rustStartsWith input.agent_wallet_address "0x" = true ∧
          rustLen input.agent_wallet_address = 42
      · rw [if_pos h1, if_pos h2, if_neg (by decide),
          if_neg (rustTrim_job_prefix_ne_empty (toString now)), if_pos (by decide)]
        simp [h1, h2]
      · rw [if_pos h1, if_neg h2]
        simp [h2]
    · rw [if_neg h1]
      simp [h1]
  · intro r hr
    rw [validate_acp_job_eq] at hr
    simp only [buildJob] at hr
    by_cases h1 : rustStartsWith input.escrow_hash "0x" = true ∧
        rustLen input.escrow_hash = 66
    · by_cases h2 : rustStartsWith input.agent_wallet_address "0x" = true ∧
          rustLen input.agent_wallet_address = 42
      · rw [if_pos h1, if_pos h2, if_neg (by decide),
          if_neg (rustTrim_job_prefix_ne_empty (toString now)), if_pos (by decide)] at hr
        simp at hr
      · rw [if_pos h1, if_neg h2] at hr
        injection hr with h
        exact Or.inr h.symm
    · rw [if_neg h1] at hr
      injection hr with h
      exact Or.inl h.symm

/-- Witness for C10: the job built from the well-formed example input at
timestamp 5 validates as Valid. -/
theorem built_job_validation_witness :
    validate_acp_job (buildJob 5 exInput) = .valid :=
  (built_job_validation 5 exInput).2.2.2.1.mpr
    ⟨⟨by decide, by decide⟩, ⟨by decide, by decide⟩⟩
